import Mathlib

/-!
Verification development for the ApplicationAgent form-matching engine.

The definitions below are shallow embeddings of the Python sources:
  * `src/services/semantic_matcher.py` (pattern and fuzzy field matching),
  * `src/services/form_analyzer.py` (HTML field extraction, complexity score),
  * `src/models/form.py` (field-mapping data model and confidence bands).
Strings are modelled as `List Char`; scores use `ℚ` (the Python floats in
these code paths are exact small decimals) or `ℕ` where Python uses ints.
-/

set_option maxRecDepth 100000

namespace AppAgent

/-! ### Basic string helpers (Python `str` operations on `List Char`) -/

/-- Python `str.lower()` (ASCII-relevant part). -/
def pyLower (s : List Char) : List Char := s.map Char.toLower

/-- Does `hay` start with `needle`?  (case-sensitive, as Python `in`). -/
def leadsWith : List Char → List Char → Bool
  | [], _ => true
  | _ :: _, [] => false
  | a :: ns, b :: hs => a == b && leadsWith ns hs

/-- Python `needle in hay` on strings: substring occurrence. -/
def occursIn (needle : List Char) : List Char → Bool
  | [] => leadsWith needle []
  | c :: rest => leadsWith needle (c :: rest) || occursIn needle rest

/-- Python `str.strip()` (whitespace on both ends). -/
def pyStrip (s : List Char) : List Char :=
  ((s.dropWhile Char.isWhitespace).reverse.dropWhile Char.isWhitespace).reverse

/-- Python `str.split()` with no argument: split on whitespace runs,
no empty words. -/
def pySplitAux : List Char → List Char → List (List Char)
  | [], acc => if acc.isEmpty then [] else [acc.reverse]
  | c :: rest, acc =>
    if c.isWhitespace then
      if acc.isEmpty then pySplitAux rest [] else acc.reverse :: pySplitAux rest []
    else pySplitAux rest (c :: acc)

def pySplit (s : List Char) : List (List Char) := pySplitAux s []

/-- Python `' '.join(strings)` on char lists. -/
def joinSpace : List (List Char) → List Char
  | [] => []
  | [w] => w
  | w :: ws => w ++ ' ' :: joinSpace ws

/-! ### A small regular-expression engine

The pattern table of `SemanticMatcher` uses only three constructs of
Python `re`: literal characters, `\s*` (zero or more whitespace) and a
`?`-optional character (`years?`).  `reMatchFuel` is a backtracking
matcher over that fragment; the fuel argument strictly exceeds
`2 * |text| + |tokens|`, which every recursive call decreases, so the
`0` case is never reached at the call site `reMatchAt`.  Character
comparison is case-insensitive, modelling `re.IGNORECASE`. -/

inductive RTok where
  | lit (c : Char)
  | optChar (c : Char)
  | wsStar
deriving DecidableEq, Repr

/-- Case-insensitive character comparison (`re.IGNORECASE`). -/
def chEq (a b : Char) : Bool := a.toLower == b.toLower

def reMatchFuel : Nat → List RTok → List Char → Bool
  | 0, _, _ => false
  | _ + 1, [], _ => true
  | _ + 1, RTok.lit _ :: _, [] => false
  | f + 1, RTok.lit c :: ts, x :: xs => chEq x c && reMatchFuel f ts xs
  | f + 1, RTok.optChar _ :: ts, [] => reMatchFuel f ts []
  | f + 1, RTok.optChar c :: ts, x :: xs =>
      (chEq x c && reMatchFuel f ts xs) || reMatchFuel f ts (x :: xs)
  | f + 1, RTok.wsStar :: ts, [] => reMatchFuel f ts []
  | f + 1, RTok.wsStar :: ts, x :: xs =>
      reMatchFuel f ts (x :: xs) || (x.isWhitespace && reMatchFuel f (RTok.wsStar :: ts) xs)

/-- Match the token list against a prefix of `xs`. -/
def reMatchAt (ts : List RTok) (xs : List Char) : Bool :=
  reMatchFuel (2 * xs.length + ts.length + 1) ts xs

/-- Python `re.search`: the pattern matches at some position of the text. -/
def reSearch (ts : List RTok) : List Char → Bool
  | [] => reMatchAt ts []
  | x :: xs => reMatchAt ts (x :: xs) || reSearch ts xs

/-- Parse a raw pattern string of the table into tokens.  Only the three
constructs that actually occur in the table are recognised; everything
else is a literal character. -/
def parsePat : List Char → List RTok
  | [] => []
  | '\\' :: 's' :: '*' :: rest => RTok.wsStar :: parsePat rest
  | c :: '?' :: rest => RTok.optChar c :: parsePat rest
  | c :: rest => RTok.lit c :: parsePat rest

/-! ### Data model (`src/models/application.py`, `src/models/form.py`) -/

inductive FieldType where
  | text | email | phone | number | date | select | radio
  | checkbox | textarea | file | hidden | url | password
deriving DecidableEq, Repr

/-- The `.value` string of the `FieldType` enum (note `PHONE = "tel"`). -/
def FieldType.val : FieldType → String
  | .text => "text"
  | .email => "email"
  | .phone => "tel"
  | .number => "number"
  | .date => "date"
  | .select => "select"
  | .radio => "radio"
  | .checkbox => "checkbox"
  | .textarea => "textarea"
  | .file => "file"
  | .hidden => "hidden"
  | .url => "url"
  | .password => "password"

inductive FieldMappingConfidence where
  | low | medium | high | veryHigh
deriving DecidableEq, Repr

inductive MappingSource where
  | aiAnalysis | fuzzyMatching | exactMatch | userCorrection | learnedPattern
deriving DecidableEq, Repr

/-- `FormField` (the attributes read by the matching engine; layout and
validation attributes that no verified code path reads are elided). -/
structure FormField where
  fieldId : String
  fieldName : String
  label : String
  fieldType : FieldType
  required : Bool := false
  options : List String := []
  contextClues : List String := []
deriving DecidableEq, Repr

/-- The band computation of the pydantic validator
`FieldMapping.set_confidence_level` (`src/models/form.py`). -/
def confidenceBand (score : ℚ) : FieldMappingConfidence :=
  if score ≤ 40 then .low
  else if score ≤ 70 then .medium
  else if score ≤ 90 then .high
  else .veryHigh

/-- `set_confidence_level(cls, v, values)`: the passed value `v` is
ignored and the band is recomputed from `values.get('confidence_score', 0)`. -/
def set_confidence_level (v : FieldMappingConfidence)
    (confidence_score : Option ℚ) : FieldMappingConfidence :=
  confidenceBand (confidence_score.getD 0)

structure FieldMapping where
  fieldId : String
  profilePath : String
  confidenceScore : ℚ
  confidenceLevel : FieldMappingConfidence
  mappingSource : MappingSource
  fieldLabel : String
  fieldType : FieldType
  fieldContext : List String
  directMatch : Bool
deriving DecidableEq, Repr

/-- A pydantic `ValidationError` as raised by `FieldMapping(...)`:
either a required field was not passed, or a field value violates its
declared bounds. -/
inductive ValidationError where
  | fieldRequired (fieldName : String)
  | valueOutOfRange (fieldName : String)
deriving DecidableEq, Repr

/-- Does this computation raise (model of an uncaught Python exception)? -/
def raises {ε α : Type} : Except ε α → Bool
  | .error _ => true
  | .ok _ => false

/-- pydantic construction of a `FieldMapping`.  `confidence_level` is a
required field (`Field(...)`) guarded by a plain `@validator` (no
`always=True`): when the argument is missing, construction raises
"field required" — the validator never runs on a missing field (pydantic
v1 and the v2 `@validator` shim agree) — and when it is supplied, the
validator replaces it by the band recomputed from `confidence_score`.
`confidence_score` itself carries `ge=0, le=100` bounds.  Every
`FieldMapping(...)` call in `semantic_matcher.py` omits
`confidence_level`, so those calls always raise. -/
def fieldMappingInit (fieldId profilePath : String) (score : ℚ)
    (src : MappingSource) (fieldLabel : String) (ft : FieldType)
    (ctx : List String) (direct : Bool)
    (confidence_level : Option FieldMappingConfidence) :
    Except ValidationError FieldMapping :=
  if 0 ≤ score ∧ score ≤ 100 then
    match confidence_level with
    | none => .error (ValidationError.fieldRequired "confidence_level")
    | some v => .ok
      { fieldId := fieldId
        profilePath := profilePath
        confidenceScore := score
        confidenceLevel := set_confidence_level v (some score)
        mappingSource := src
        fieldLabel := fieldLabel
        fieldType := ft
        fieldContext := ctx
        directMatch := direct }
  else .error (ValidationError.valueOutOfRange "confidence_score")

/-- The profile object is only threaded through the fallback matchers;
neither `_pattern_match_field` nor `_fuzzy_match_field` reads it. -/
structure UserProfile where
  deriving DecidableEq, Repr

/-! ### Pattern classifier (`SemanticMatcher._pattern_match_field`) -/

/-- `self.field_patterns` of `SemanticMatcher.__init__`, verbatim. -/
def fieldPatterns : List (String × List String) :=
  [ ("personal.first_name", [r"first\s*name", r"firstname", r"given\s*name", r"forename"]),
    ("personal.last_name", [r"last\s*name", r"lastname", r"surname", r"family\s*name"]),
    ("personal.full_name", [r"full\s*name", r"complete\s*name", r"name", r"your\s*name"]),
    ("contact.email", [r"email", r"e-mail", r"mail", r"email\s*address"]),
    ("contact.phone", [r"phone", r"telephone", r"mobile", r"cell", r"contact\s*number"]),
    ("personal.address_line1", [r"address", r"street", r"address\s*line\s*1"]),
    ("personal.city", [r"city", r"town"]),
    ("personal.state", [r"state", r"province", r"region"]),
    ("personal.postal_code", [r"zip", r"postal", r"postcode", r"zip\s*code"]),
    ("personal.country", [r"country", r"nation"]),
    ("contact.linkedin_url", [r"linkedin", r"linked\s*in"]),
    ("contact.github_url", [r"github", r"git\s*hub"]),
    ("contact.portfolio_url", [r"portfolio", r"website", r"personal\s*site"]),
    ("experience.total_years", [r"years?\s*of\s*experience", r"experience\s*years?", r"total\s*experience"]),
    ("compensation.current_salary", [r"current\s*salary", r"present\s*salary", r"salary"]),
    ("compensation.desired_salary_min", [r"desired\s*salary", r"expected\s*salary", r"salary\s*expectation"]) ]

/-- `SemanticMatcher._calculate_pattern_confidence`: 95 when the raw
pattern string occurs verbatim in the text, 80 when it matches as a
case-insensitive regex, otherwise 0. -/
def calculatePatternConfidence (pattern fieldText : List Char) : ℚ :=
  if occursIn pattern fieldText then 95
  else if reSearch (parsePat pattern) fieldText then 80
  else 0

/-- The `field_text` built by `_pattern_match_field`:
`f"{field.label} {' '.join(field.context_clues)}".lower()`. -/
def fieldTextOf (field : FormField) : List Char :=
  pyLower (field.label.data ++ ' ' :: joinSpace (field.contextClues.map String.data))

/-- Inner loop of `_pattern_match_field` over the patterns of one profile
path: confidence is computed (and the best pair updated) only when
`re.search` succeeds. -/
def patternLoopInner (path : String) (fieldText : List Char) :
    List String → Option String × ℚ → Option String × ℚ
  | [], acc => acc
  | pat :: rest, (bm, bs) =>
    if reSearch (parsePat pat.data) fieldText then
      let c := calculatePatternConfidence pat.data fieldText
      if c > bs then patternLoopInner path fieldText rest (some path, c)
      else patternLoopInner path fieldText rest (bm, bs)
    else patternLoopInner path fieldText rest (bm, bs)

/-- Outer loop of `_pattern_match_field` over `self.field_patterns.items()`. -/
def patternLoopOuter (fieldText : List Char) :
    List (String × List String) → Option String × ℚ → Option String × ℚ
  | [], acc => acc
  | (path, pats) :: rest, acc =>
    patternLoopOuter fieldText rest (patternLoopInner path fieldText pats acc)

/-- `SemanticMatcher._pattern_match_field`.  When a best match above the
50 threshold exists, the code executes `return FieldMapping(...)` with no
`confidence_level` argument: the construction raises, and the raise
propagates out of the function (there is no handler here).  `.ok none`
models the `return None` paths. -/
def patternMatchField (field : FormField) : Except ValidationError (Option FieldMapping) :=
  match patternLoopOuter (fieldTextOf field) fieldPatterns (none, 0) with
  | (some path, bs) =>
    if bs > 50 then
      (fieldMappingInit field.fieldId path bs
        (if bs > 90 then .exactMatch else .fuzzyMatching)
        field.label field.fieldType field.contextClues true none).map (fun m => some m)
    else .ok none
  | (none, _) => .ok none

/-! ### Fuzzy classifier (`SemanticMatcher._fuzzy_match_field`)

The similarity call in the source is `fuzz.partial_ratio` of the
`fuzzywuzzy` package, an external dependency that is not part of this
repository. -/

/-- Modelled from the spec: `fuzzywuzzy.fuzz.partial_ratio`, the external
similarity routine used by `_fuzzy_match_field`, is missing from the
repository sources.  The specification (§4.5) describes the similarity as
"identical strings → 100, one fully contains the other → 90, else
Jaccard-style token overlap in [0,100]", which is word-for-word the
repository's own dependency-free reimplementation `simple_partial_ratio`
in `JobApplicationAgent/test_semantic_matching.py`; this definition is a
direct translation of that function.  (Python computes the last line as
`int((len(intersection) / len(union)) * 100)` with float division; it is
modelled here by exact natural floor division.) -/
def simplePartialMatch (t1 t2 : List Char) : ℕ :=
  if t1.isEmpty || t2.isEmpty then 0
  else
    let a := pyStrip (pyLower t1)
    let b := pyStrip (pyLower t2)
    if a = b then 100
    else if occursIn a b || occursIn b a then 90
    else
      let words1 := (pySplit a).dedup
      let words2 := (pySplit b).dedup
      if words1.isEmpty || words2.isEmpty then 0
      else
        let inter := words1.filter (fun w => w ∈ words2)
        let uni := (words1 ++ words2).dedup
        if uni.isEmpty then 0 else inter.length * 100 / uni.length

/-- `profile_field_labels` of `_fuzzy_match_field`, verbatim. -/
def profileFieldLabels : List (String × List String) :=
  [ ("personal.first_name", ["first name", "given name", "forename"]),
    ("personal.last_name", ["last name", "surname", "family name"]),
    ("personal.full_name", ["full name", "complete name", "name"]),
    ("contact.email", ["email address", "email", "e-mail"]),
    ("contact.phone", ["phone number", "telephone", "mobile number"]),
    ("personal.city", ["city", "town"]),
    ("personal.state", ["state", "province"]),
    ("personal.country", ["country"]),
    ("experience.total_years", ["years of experience", "experience"]),
    ("compensation.current_salary", ["current salary", "salary"]) ]

/-- Inner loop of `_fuzzy_match_field` over the label variants of one
profile path: `if similarity > best_score and similarity > 60`. -/
def fuzzyLoopInner (path : String) (fieldText : List Char) :
    List String → Option String × ℕ → Option String × ℕ
  | [], acc => acc
  | v :: rest, (bm, bs) =>
    let sim := simplePartialMatch fieldText v.data
    if sim > bs ∧ sim > 60 then fuzzyLoopInner path fieldText rest (some path, sim)
    else fuzzyLoopInner path fieldText rest (bm, bs)

/-- Outer loop of `_fuzzy_match_field` over `profile_field_labels.items()`. -/
def fuzzyLoopOuter (fieldText : List Char) :
    List (String × List String) → Option String × ℕ → Option String × ℕ
  | [], acc => acc
  | (path, vars) :: rest, acc =>
    fuzzyLoopOuter fieldText rest (fuzzyLoopInner path fieldText vars acc)

/-- `SemanticMatcher._fuzzy_match_field`: compares `field.label.lower()`
(only the label, not the context clues) against the variant table.  When
a best match was recorded, `return FieldMapping(...)` omits the required
`confidence_level`, so construction raises and the raise propagates;
`.ok none` models the `return None` path. -/
def fuzzyMatchField (field : FormField) : Except ValidationError (Option FieldMapping) :=
  match fuzzyLoopOuter (pyLower field.label.data) profileFieldLabels (none, 0) with
  | (some path, bs) =>
    (fieldMappingInit field.fieldId path (bs : ℚ) .fuzzyMatching
      field.label field.fieldType field.contextClues false none).map (fun m => some m)
  | (none, _) => .ok none

/-! ### Orchestrator (`SemanticMatcher.match_fields_to_profile`) -/

/-- `SemanticMatcher._fallback_field_matching`: per field, pattern match
first, fuzzy match otherwise; unmatched fields produce no mapping.
There is no exception handler in this function, so a `ValidationError`
raised by either matcher propagates to its caller. -/
def fallbackFieldMatching (fields : List FormField) (profile : UserProfile) :
    Except ValidationError (List FieldMapping) :=
  match fields with
  | [] => .ok []
  | f :: rest =>
    match patternMatchField f with
    | .error e => .error e
    | .ok (some m) => (fallbackFieldMatching rest profile).map (fun ms => m :: ms)
    | .ok none =>
      match fuzzyMatchField f with
      | .error e => .error e
      | .ok (some m) => (fallbackFieldMatching rest profile).map (fun ms => m :: ms)
      | .ok none => fallbackFieldMatching rest profile

/-- One entry of the AI response's `field_mappings` list
(`mapping_data` in `_parse_ai_mappings`), with the dictionary defaults. -/
structure AIMappingData where
  fieldId : String
  profileMapping : String := ""
  confidenceScore : ℚ := 0
  directMatch : Bool := true
deriving DecidableEq, Repr

/-- The AI adapter's reply: `AIResponse.success` and
`AIResponse.data['field_mappings']` (`none` models a falsy `data`). -/
structure AIResponseM where
  success : Bool
  data : Option (List AIMappingData)
deriving DecidableEq, Repr

/-- `SemanticMatcher._parse_ai_mappings`: entries whose `field_id` is not
a form field are skipped; each `FieldMapping(...)` construction runs
inside a per-entry try/except, so a `ValidationError` is caught and the
entry skipped.  Since the call omits the required `confidence_level`,
every construction raises and the function invariably returns `[]`. -/
def parseAiMappings (aiMappings : List AIMappingData)
    (formFields : List FormField) : List FieldMapping :=
  match aiMappings with
  | [] => []
  | md :: rest =>
    match formFields.find? (fun f => f.fieldId == md.fieldId) with
    | none => parseAiMappings rest formFields
    | some field =>
      match fieldMappingInit md.fieldId md.profileMapping md.confidenceScore .aiAnalysis
          field.label field.fieldType field.contextClues md.directMatch none with
      | .ok m => m :: parseAiMappings rest formFields
      | .error _ => parseAiMappings rest formFields

/-- `SemanticMatcher.match_fields_to_profile`.  The optional AI service is
a function that either raises (`Except.error`) or returns an `AIResponseM`.
The `try` block spans the adapter call, the success-branch processing
(including the inner fallback call) and its `return`; the bare
`except Exception` swallows any exception raised inside it and execution
falls through to the final fallback, which has no handler: a
`ValidationError` raised there propagates to the caller.  In the model,
`tryOutcome = some l` is the early return inside the `try` and
`tryOutcome = none` is every fall-through (adapter exception, falsy
success/data, or an exception during the inner fallback). -/
def matchFieldsToProfile
    (aiService : Option (List FormField → UserProfile → Except String AIResponseM))
    (formFields : List FormField) (profile : UserProfile) :
    Except ValidationError (List FieldMapping) :=
  match aiService with
  | none => fallbackFieldMatching formFields profile
  | some svc =>
    let tryOutcome : Option (List FieldMapping) :=
      match svc formFields profile with
      | .error _ => none
      | .ok r =>
        match r.success, r.data with
        | true, some d =>
          let aiMappings := parseAiMappings d formFields
          let matchedIds := aiMappings.map (fun m => m.fieldId)
          let unmatched := formFields.filter (fun f => !(matchedIds.contains f.fieldId))
          if unmatched.isEmpty then some aiMappings
          else
            match fallbackFieldMatching unmatched profile with
            | .ok fbs => some (aiMappings ++ fbs)
            | .error _ => none
        | _, _ => none
    match tryOutcome with
    | some result => .ok result
    | none => fallbackFieldMatching formFields profile

/-! ### Form analyzer (`src/services/form_analyzer.py`)

An HTML document is modelled as the list of its elements in document
order; the CSS selectors used by `_extract_html_fields` are
non-hierarchical, so tag and attributes per element suffice.  Label,
context-clue, section and option extraction (pure tree lookups) are
elided: they do not influence identifier assignment, skipping, ordering
or the metadata counts verified below. -/

structure Elem where
  tag : String
  attrs : List (String × String)
deriving DecidableEq, Repr

/-- BeautifulSoup `element.get(name)`. -/
def Elem.getAttr (e : Elem) (name : String) : Option String :=
  (e.attrs.find? (fun kv => kv.1 == name)).map (fun kv => kv.2)

/-- BeautifulSoup `element.has_attr(name)`. -/
def Elem.hasAttr (e : Elem) (name : String) : Bool :=
  (e.getAttr name).isSome

/-- One selector of `field_selectors`: either `input[type="…"]` or a bare
tag (`textarea`, `select`). -/
inductive Selector where
  | inputType (t : String)
  | tagOnly (tag : String)
deriving DecidableEq, Repr

def matchesSelector : Selector → Elem → Bool
  | .inputType t, e => e.tag == "input" && e.getAttr "type" == some t
  | .tagOnly tg, e => e.tag == tg

/-- `field_selectors` of `_extract_html_fields`, in declared order. -/
def fieldSelectors : List Selector :=
  [ .inputType "text", .inputType "email", .inputType "tel",
    .inputType "number", .inputType "date", .inputType "url",
    .inputType "password", .inputType "file", .inputType "checkbox",
    .inputType "radio", .tagOnly "textarea", .tagOnly "select" ]

/-- The descriptor dictionary built by `_extract_field_data` (the keys
the verified properties read). -/
structure FieldData where
  fieldId : String
  fieldName : String
  fieldType : String
  inputType : String
  required : Bool
deriving DecidableEq, Repr

/-- `FormAnalyzer._map_input_type_to_field_type`. -/
def mapInputTypeToFieldType (it : String) : FieldType :=
  if it == "text" then .text
  else if it == "email" then .email
  else if it == "tel" then .phone
  else if it == "phone" then .phone
  else if it == "number" then .number
  else if it == "date" then .date
  else if it == "url" then .url
  else if it == "password" then .password
  else if it == "file" then .file
  else if it == "checkbox" then .checkbox
  else if it == "radio" then .radio
  else .text

/-- `FormAnalyzer._extract_field_data`: name defaults to
`field_{field_counter}`, id defaults to the name; hidden/submit/button/
reset controls are skipped (`None`). -/
def extractFieldData (e : Elem) (fieldCounter : Nat) : Option FieldData :=
  let fieldName := (e.getAttr "name").getD (s!"field_{fieldCounter}")
  let fieldId := (e.getAttr "id").getD fieldName
  let skip :=
    match e.getAttr "type" with
    | some t => (["hidden", "submit", "button", "reset"] : List String).contains t
    | none => false
  if skip then none
  else
    let ftit : FieldType × String :=
      if e.tag == "input" then
        let it := (e.getAttr "type").getD "text"
        (mapInputTypeToFieldType it, it)
      else if e.tag == "textarea" then (.textarea, "textarea")
      else if e.tag == "select" then (.select, "select")
      else (.text, "text")
    let required := e.hasAttr "required" || e.getAttr "aria-required" == some "true"
    some { fieldId := fieldId, fieldName := fieldName,
           fieldType := ftit.1.val, inputType := ftit.2, required := required }

/-- The element-level loop of `_extract_html_fields`: the counter advances
only when a descriptor is produced. -/
def extractElems : List Elem → Nat → List FieldData × Nat
  | [], k => ([], k)
  | e :: rest, k =>
    match extractFieldData e k with
    | some fd => let p := extractElems rest (k + 1); (fd :: p.1, p.2)
    | none => extractElems rest k

/-- The selector-level loop of `_extract_html_fields`: one
`soup.select(selector)` pass per selector, counter threaded through. -/
def extractGroups : List Selector → List Elem → Nat → List FieldData
  | [], _, _ => []
  | s :: ss, doc, k =>
    let p := extractElems (doc.filter (matchesSelector s)) k
    p.1 ++ extractGroups ss doc p.2

/-- `FormAnalyzer._extract_html_fields`. -/
def extractHtmlFields (doc : List Elem) : List FieldData :=
  extractGroups fieldSelectors doc 0

/-- `FormAnalyzer._calculate_complexity_score` (`fields`, plus the
`required_fields` and `has_file_uploads` entries of the metadata dict). -/
def calculateComplexityScore (fields : List FieldData)
    (requiredFields : Nat) (hasFileUploads : Bool) : ℚ :=
  let totalFields := fields.length
  let score : ℚ :=
    if totalFields ≤ 5 then 1
    else if totalFields ≤ 10 then 2
    else if totalFields ≤ 20 then 4
    else 6
  let score := if hasFileUploads then score + 1 else score
  let score :=
    if 0 < totalFields ∧ (requiredFields : ℚ) / (totalFields : ℚ) > 7 / 10 then score + 1
    else score
  let textareaCount := (fields.filter (fun f => f.fieldType == "textarea")).length
  let score :=
    if 0 < textareaCount then score + min ((textareaCount : ℚ) * (1 / 2)) 2
    else score
  min score 10

/-- The metadata counts accumulated by the field loop of
`_basic_form_analysis`. -/
structure FormMetaCounts where
  totalFields : Nat
  requiredFields : Nat
  optionalFields : Nat
  hasFileUploads : Bool
deriving DecidableEq, Repr

/-- The two return shapes of `_basic_form_analysis`: the no-form error
dictionary, or the analyzed result (title/company/section extraction and
the strategy/issue lists are elided). -/
inductive BasicAnalysis where
  | noForm (error : String) (totalFieldsMeta : Nat)
  | analyzed (metadata : FormMetaCounts) (complexityScore : ℚ) (fields : List FieldData)
deriving DecidableEq, Repr

def BasicAnalysis.totalFieldsMeta : BasicAnalysis → Nat
  | .noForm _ t => t
  | .analyzed md _ _ => md.totalFields

def BasicAnalysis.errorMsg : BasicAnalysis → Option String
  | .noForm msg _ => some msg
  | .analyzed _ _ _ => none

/-- `FormAnalyzer._basic_form_analysis` (a total function: no input makes
it raise).  With no `<form>` element it returns the structured error
result `{"error": …, "form_metadata": {"total_fields": 0}}`. -/
def basicFormAnalysis (doc : List Elem) : BasicAnalysis :=
  let forms := doc.filter (fun e => e.tag == "form")
  if forms.isEmpty then .noForm "No form elements found in HTML" 0
  else
    let htmlFields := extractHtmlFields doc
    let md : FormMetaCounts :=
      { totalFields := htmlFields.length
        requiredFields := (htmlFields.filter (fun f => f.required)).length
        optionalFields := (htmlFields.filter (fun f => !f.required)).length
        hasFileUploads := htmlFields.any (fun f => f.fieldType == "file") }
    .analyzed md (calculateComplexityScore htmlFields md.requiredFields md.hasFileUploads) htmlFields

/-! ### Claim-side definitions

The definitions below restate, in the words of the specification, the
quantities the theorems compare against the embedded code. -/

/-- Per-pattern score of the classifier as the code computes it: a
pattern whose case-insensitive regex does not match contributes 0 (it is
never scored); a matching pattern scores 95 when its raw string occurs
verbatim in the text, else 80. -/
def gatedPatternScore (pattern fieldText : List Char) : ℚ :=
  if reSearch (parsePat pattern) fieldText then
    (if occursIn pattern fieldText then 95 else 80)
  else 0

/-- Per-pattern score as the specification words it: 95 for a verbatim
substring, 80 for a regex-only match, 0 otherwise — with no regex gate.
This coincides with `_calculate_pattern_confidence` applied directly. -/
def claimPatternScore (pattern fieldText : List Char) : ℚ :=
  calculatePatternConfidence pattern fieldText

/-- The pattern table flattened to (profile path, score) pairs in
declaration order, with the code's gated scoring. -/
def patternPairs (t : List Char) : List (String × ℚ) :=
  (fieldPatterns.map (fun pp => pp.2.map (fun pat => (pp.1, gatedPatternScore pat.data t)))).flatten

/-- The pattern table flattened with the specification's ungated scoring. -/
def claimPatternPairs (t : List Char) : List (String × ℚ) :=
  (fieldPatterns.map (fun pp => pp.2.map (fun pat => (pp.1, claimPatternScore pat.data t)))).flatten

/-- Best score over the table, gated scoring (the maximum the code's
loop keeps). -/
def bestPatternScore (t : List Char) : ℚ :=
  ((patternPairs t).map Prod.snd).foldl max 0

/-- Best score over the table with the specification's ungated scoring. -/
def bestClaimPatternScore (t : List Char) : ℚ :=
  ((claimPatternPairs t).map Prod.snd).foldl max 0

/-- A declared pattern phrase that is a plain literal: no `\s*` escape
and no `?` quantifier (the only regex metacharacters the table uses). -/
def isLiteralPhrase (p : String) : Bool :=
  p.data.all (fun c => !(c == '\\' || c == '?' || c == '*'))

/-- A bare text field carrying a given label and nothing else. -/
def mkLabelField (lbl : String) : FormField :=
  { fieldId := "field", fieldName := "field", label := lbl, fieldType := .text }

/-- A field whose label is exactly the declared pattern phrase
`years?\s*of\s*experience`. -/
def yoeField : FormField := mkLabelField r"years?\s*of\s*experience"

/-- A field whose label is exactly the declared pattern phrase
`contact\s*number`. -/
def contactNumberField : FormField := mkLabelField r"contact\s*number"

/-- The scenario field of the specification: label "First Name *",
required, type text. -/
def firstNameField : FormField :=
  { fieldId := "first_name", fieldName := "first_name", label := "First Name *",
    fieldType := .text, required := true }

def emailField : FormField :=
  { fieldId := "email", fieldName := "email", label := "Email", fieldType := .email }

def givenNameField : FormField :=
  { fieldId := "given", fieldName := "given", label := "Given Name", fieldType := .text }

def defaultProfile : UserProfile := {}

/-- The mapping the pattern classifier would produce for `emailField` if
its construction succeeded (it does not: the classifier raises). -/
def emailMapping : FieldMapping :=
  { fieldId := "email", profilePath := "contact.email", confidenceScore := 95,
    confidenceLevel := .veryHigh, mappingSource := .exactMatch, fieldLabel := "Email",
    fieldType := .email, fieldContext := [], directMatch := true }

/-- The mapping pydantic builds from score 85 when a confidence level is
explicitly supplied: the validator overrides it with the high band. -/
def sampleMapping85 : FieldMapping :=
  { fieldId := "f", profilePath := "contact.email", confidenceScore := 85,
    confidenceLevel := .high, mappingSource := .fuzzyMatching, fieldLabel := "Email",
    fieldType := .email, fieldContext := [], directMatch := false }

/-- An adapter that always fails (e.g. a timeout surfacing as an
exception). -/
def failingService : List FormField → UserProfile → Except String AIResponseM :=
  fun _ _ => .error "timeout"

/-- The variant table flattened to (profile path, similarity) pairs for a
given label, in declaration order. -/
def fuzzyPairs (label : String) : List (String × ℕ) :=
  (profileFieldLabels.map (fun pv =>
    pv.2.map (fun v => (pv.1, simplePartialMatch (pyLower label.data) v.data)))).flatten

/-- Best similarity of a label over all declared variants. -/
def bestFuzzySim (label : String) : ℕ :=
  ((fuzzyPairs label).map Prod.snd).foldl max 0

/-- The complexity formula as the specification words it: field-count
bucket, +1 for a file field, +1 for a required ratio above 0.7 (when any
field exists), plus the capped textarea term. -/
def complexitySpecFormula (fields : List FieldData) : ℚ :=
  let totalFields := fields.length
  let base : ℚ :=
    if totalFields ≤ 5 then 1
    else if totalFields ≤ 10 then 2
    else if totalFields ≤ 20 then 4
    else 6
  let fileAdd : ℚ := if fields.any (fun f => f.fieldType == "file") then 1 else 0
  let reqAdd : ℚ :=
    if 0 < totalFields ∧
        (((fields.filter (fun f => f.required)).length : ℚ) / (totalFields : ℚ) > 7 / 10) then 1
    else 0
  let taAdd : ℚ := min (((fields.filter (fun f => f.fieldType == "textarea")).length : ℚ) * (1 / 2)) 2
  base + fileAdd + reqAdd + taAdd

/-- The extracted elements in the order the selector loop visits them:
grouped by selector (control kind) in the fixed declared order, document
order only within each group. -/
def selectedElems (doc : List Elem) : List Elem :=
  (fieldSelectors.map (fun s => doc.filter (matchesSelector s))).flatten

/-- A radio-group control (no `id` attribute, shared `name`), as emitted
for an ordinary two-option radio group. -/
def radioElem (v : String) : Elem :=
  { tag := "input", attrs := [("type", "radio"), ("name", "gender"), ("value", v)] }

def radioDoc : List Elem := [radioElem "male", radioElem "female"]

/-- Two controls with distinct explicit ids. -/
def idsDoc : List Elem :=
  [ { tag := "input", attrs := [("type", "text"), ("id", "first"), ("name", "first")] },
    { tag := "input", attrs := [("type", "email"), ("id", "contact"), ("name", "contact")] } ]

/-- A document whose select precedes its text input: grouped extraction
reverses them. -/
def mixedDoc : List Elem :=
  [ { tag := "select", attrs := [("name", "country")] },
    { tag := "input", attrs := [("type", "text"), ("name", "first")] } ]

/-- A document with no form element at all. -/
def noFormDoc : List Elem := [ { tag := "div", attrs := [] } ]

/-- The threshold-guarded best-score scan of the fuzzy loop
(`similarity > best_score and similarity > 60`), in generic form. -/
def scanPairsT : List (String × ℕ) → Option String × ℕ → Option String × ℕ
  | [], acc => acc
  | (p, c) :: rest, (bm, bs) =>
    if c > bs ∧ c > 60 then scanPairsT rest (some p, c) else scanPairsT rest (bm, bs)

/-! ### Generic lemmas about best-score scan loops

`scanPairs` is the common shape of the two classifier loops: walk a list
of (profile path, score) pairs keeping the strictly-better pair.
`firstWith` returns the path of the first pair attaining a given score
("first-declared-wins"). -/

def scanPairs {α : Type} [LinearOrder α] :
    List (String × α) → Option String × α → Option String × α
  | [], acc => acc
  | (p, c) :: rest, (bm, bs) =>
    if c > bs then scanPairs rest (some p, c) else scanPairs rest (bm, bs)

def firstWith {α : Type} [DecidableEq α] : List (String × α) → α → Option String
  | [], _ => none
  | (p, c) :: rest, m => if c = m then some p else firstWith rest m

theorem le_foldl_max {α : Type} [LinearOrder α] :
    ∀ (l : List α) (a : α), a ≤ l.foldl max a
  | [], _ => le_refl _
  | c :: cs, a => le_trans (le_max_left a c) (le_foldl_max cs (max a c))

theorem foldl_max_mem {α : Type} [LinearOrder α] :
    ∀ (l : List α) (a : α), l.foldl max a = a ∨ l.foldl max a ∈ l
  | [], _ => Or.inl rfl
  | c :: cs, a => by
    simp only [List.foldl_cons]
    rcases foldl_max_mem cs (max a c) with h | h
    · rcases max_choice a c with hm | hm
      · exact Or.inl (h.trans hm)
      · exact Or.inr (by rw [h, hm]; exact List.mem_cons_self c cs)
    · exact Or.inr (List.mem_cons_of_mem c h)

theorem elem_le_foldl_max {α : Type} [LinearOrder α] (x : α) :
    ∀ (l : List α) (a : α), x ∈ l → x ≤ l.foldl max a
  | [], _, hx => by cases hx
  | c :: cs, a, hx => by
    simp only [List.foldl_cons]
    rcases List.mem_cons.mp hx with rfl | h
    · exact le_trans (le_max_right a x) (le_foldl_max cs (max a x))
    · exact elem_le_foldl_max x cs (max a c) h

theorem foldl_max_le {α : Type} [LinearOrder α] :
    ∀ (l : List α) (a b : α), a ≤ b → (∀ x ∈ l, x ≤ b) → l.foldl max a ≤ b
  | [], _, _, hab, _ => hab
  | c :: cs, a, b, hab, h => by
    simp only [List.foldl_cons]
    exact foldl_max_le cs (max a c) b
      (max_le hab (h c (List.mem_cons_self c cs)))
      (fun x hx => h x (List.mem_cons_of_mem c hx))

/-- A strict-improvement scan computes the running maximum, and its best
path is the first pair attaining that maximum (ties keep the earlier
pair). -/
theorem scanPairs_spec {α : Type} [LinearOrder α] :
    ∀ (pairs : List (String × α)) (bm : Option String) (bs : α),
      scanPairs pairs (bm, bs) =
        (if (pairs.map Prod.snd).foldl max bs > bs
          then firstWith pairs ((pairs.map Prod.snd).foldl max bs)
          else bm,
         (pairs.map Prod.snd).foldl max bs)
  | [], bm, bs => by simp [scanPairs, firstWith]
  | (p, c) :: rest, bm, bs => by
    simp only [scanPairs, List.map_cons, List.foldl_cons, firstWith]
    by_cases hc : c > bs
    · rw [if_pos hc, scanPairs_spec rest (some p) c, max_eq_right hc.le]
      have hMc : c ≤ (rest.map Prod.snd).foldl max c := le_foldl_max _ c
      rw [if_pos (lt_of_lt_of_le hc hMc)]
      by_cases hMgt : (rest.map Prod.snd).foldl max c > c
      · rw [if_pos hMgt, if_neg (ne_of_lt hMgt)]
      · rw [if_neg hMgt, if_pos (le_antisymm hMc (not_lt.mp hMgt))]
    · rw [if_neg hc, scanPairs_spec rest bm bs,
        max_eq_left (not_lt.mp hc)]
      by_cases hgt : (rest.map Prod.snd).foldl max bs > bs
      · rw [if_pos hgt, if_pos hgt,
          if_neg (ne_of_lt (lt_of_le_of_lt (not_lt.mp hc) hgt))]
      · rw [if_neg hgt, if_neg hgt]

theorem scanPairs_append {α : Type} [LinearOrder α] :
    ∀ (l₁ l₂ : List (String × α)) (acc : Option String × α),
      scanPairs (l₁ ++ l₂) acc = scanPairs l₂ (scanPairs l₁ acc)
  | [], _, acc => by simp [scanPairs]
  | (p, c) :: rest, l₂, (bm, bs) => by
    have h1 : scanPairs ((p, c) :: rest) (bm, bs)
        = if c > bs then scanPairs rest (some p, c) else scanPairs rest (bm, bs) := rfl
    have h2 : scanPairs (((p, c) :: rest) ++ l₂) (bm, bs)
        = if c > bs then scanPairs (rest ++ l₂) (some p, c)
          else scanPairs (rest ++ l₂) (bm, bs) := rfl
    rw [h1, h2]
    by_cases hc : c > bs
    · rw [if_pos hc, if_pos hc, scanPairs_append rest l₂ (some p, c)]
    · rw [if_neg hc, if_neg hc, scanPairs_append rest l₂ (bm, bs)]

theorem firstWith_isSome {α : Type} [DecidableEq α] :
    ∀ (pairs : List (String × α)) (m : α), m ∈ pairs.map Prod.snd →
      (firstWith pairs m).isSome = true
  | [], m, hm => by cases hm
  | (p, c) :: rest, m, hm => by
    simp only [firstWith]
    by_cases hcm : c = m
    · rw [if_pos hcm]; rfl
    · rw [if_neg hcm]
      rcases List.mem_cons.mp hm with h | h
      · exact absurd h.symm hcm
      · exact firstWith_isSome rest m h

/-! ### Characterizing the pattern classifier -/

theorem gatedPatternScore_nonneg (pattern t : List Char) :
    0 ≤ gatedPatternScore pattern t := by
  unfold gatedPatternScore
  split
  · split <;> norm_num
  · norm_num

theorem calc_eq_gated_of_search {pattern t : List Char}
    (h : reSearch (parsePat pattern) t = true) :
    calculatePatternConfidence pattern t = gatedPatternScore pattern t := by
  unfold calculatePatternConfidence gatedPatternScore
  rw [if_pos h, if_pos h]

theorem patternLoopInner_eq_scan (path : String) (t : List Char) :
    ∀ (pats : List String) (bm : Option String) (bs : ℚ), 0 ≤ bs →
      patternLoopInner path t pats (bm, bs) =
        scanPairs (pats.map (fun pat => (path, gatedPatternScore pat.data t))) (bm, bs)
  | [], bm, bs, _ => rfl
  | pat :: rest, bm, bs, hbs => by
    simp only [patternLoopInner, List.map_cons, scanPairs]
    by_cases hs : reSearch (parsePat pat.data) t = true
    · rw [if_pos hs, ← calc_eq_gated_of_search hs]
      by_cases hgt : calculatePatternConfidence pat.data t > bs
      · rw [if_pos hgt, if_pos hgt,
          patternLoopInner_eq_scan path t rest (some path) _ (le_trans hbs hgt.le)]
      · rw [if_neg hgt, if_neg hgt, patternLoopInner_eq_scan path t rest bm bs hbs]
    · rw [if_neg hs,
        if_neg (by rw [gatedPatternScore, if_neg hs]; exact not_lt.mpr hbs),
        patternLoopInner_eq_scan path t rest bm bs hbs]

theorem patternLoopOuter_eq_scan (t : List Char) :
    ∀ (table : List (String × List String)) (bm : Option String) (bs : ℚ), 0 ≤ bs →
      patternLoopOuter t table (bm, bs) =
        scanPairs ((table.map (fun pp => pp.2.map (fun pat => (pp.1, gatedPatternScore pat.data t)))).flatten) (bm, bs)
  | [], bm, bs, _ => rfl
  | (path, pats) :: rest, bm, bs, hbs => by
    simp only [patternLoopOuter, List.map_cons, List.flatten_cons]
    rw [patternLoopInner_eq_scan path t pats bm bs hbs, scanPairs_append]
    rcases hsc : scanPairs (pats.map (fun pat => (path, gatedPatternScore pat.data t))) (bm, bs)
      with ⟨bm2, bs2⟩
    have h2 : 0 ≤ bs2 := by
      have hspec := scanPairs_spec (pats.map (fun pat => (path, gatedPatternScore pat.data t))) bm bs
      rw [hsc] at hspec
      have hsnd := congrArg Prod.snd hspec
      simp only at hsnd
      rw [hsnd]
      exact le_trans hbs (le_foldl_max _ bs)
    rw [hsc, patternLoopOuter_eq_scan t rest bm2 bs2 h2]


theorem fieldMappingInit_none_error (fid pp : String) (score : ℚ) (src : MappingSource)
    (lbl : String) (ft : FieldType) (ctx : List String) (dm : Bool) :
    ∃ e, fieldMappingInit fid pp score src lbl ft ctx dm none = .error e := by
  unfold fieldMappingInit
  split
  · exact ⟨_, rfl⟩
  · exact ⟨_, rfl⟩

theorem fieldMappingInit_none_ctx (fid pp : String) (score : ℚ) (src : MappingSource)
    (lbl : String) (ft : FieldType) (ctx ctx2 : List String) (dm : Bool) :
    fieldMappingInit fid pp score src lbl ft ctx dm none
      = fieldMappingInit fid pp score src lbl ft ctx2 dm none := by
  unfold fieldMappingInit
  split_ifs with h
  · rfl
  · rfl

/-- C1 (amended): for every field, the pattern classifier scores each
table entry against the lower-cased concatenation of label and context
clues with the regex-gated scoring — 0 when the case-insensitive regex
does not match (even if the raw pattern string occurs verbatim), else 95
for a verbatim raw-string substring and 80 otherwise — and keeps the
maximum over all entries; when that best score is strictly greater than
50 the attempted mapping construction raises a ValidationError (the
required confidence_level is never passed), so the classifier raises
rather than emitting; otherwise it returns no match.  It never returns a
mapping. -/
theorem pattern_classifier_scoring (f : FormField) :
    (raises (patternMatchField f) = true ↔ 50 < bestPatternScore (fieldTextOf f)) ∧
    (¬ 50 < bestPatternScore (fieldTextOf f) → patternMatchField f = .ok none) ∧
    (∀ m, patternMatchField f ≠ .ok (some m)) := by
  have hloop : patternLoopOuter (fieldTextOf f) fieldPatterns (none, 0)
      = (if bestPatternScore (fieldTextOf f) > 0
          then firstWith (patternPairs (fieldTextOf f)) (bestPatternScore (fieldTextOf f))
          else none,
         bestPatternScore (fieldTextOf f)) := by
    rw [patternLoopOuter_eq_scan (fieldTextOf f) fieldPatterns none 0 le_rfl]
    exact scanPairs_spec (patternPairs (fieldTextOf f)) none 0
  by_cases hM : 50 < bestPatternScore (fieldTextOf f)
  · have hM0 : (0 : ℚ) < bestPatternScore (fieldTextOf f) := lt_trans (by norm_num) hM
    have hmem : bestPatternScore (fieldTextOf f) ∈ (patternPairs (fieldTextOf f)).map Prod.snd := by
      rcases foldl_max_mem ((patternPairs (fieldTextOf f)).map Prod.snd) 0 with h0 | h
      · exact absurd h0 (ne_of_gt hM0)
      · exact h
    obtain ⟨path, hfw⟩ := Option.isSome_iff_exists.mp
      (firstWith_isSome (patternPairs (fieldTextOf f)) _ hmem)
    obtain ⟨e, he⟩ := fieldMappingInit_none_error f.fieldId path
      (bestPatternScore (fieldTextOf f))
      (if bestPatternScore (fieldTextOf f) > 90 then .exactMatch else .fuzzyMatching)
      f.label f.fieldType f.contextClues true
    have hpm : patternMatchField f = .error e := by
      unfold patternMatchField
      rw [hloop, if_pos hM0, hfw]
      simp [hM, he, Except.map]
    refine ⟨?_, ?_, ?_⟩
    · rw [hpm]; simp [raises, hM]
    · intro hc; exact absurd hM hc
    · intro m hm
      rw [hpm] at hm
      exact Except.noConfusion hm
  · have hpm : patternMatchField f = .ok none := by
      unfold patternMatchField
      rw [hloop]
      by_cases hM0 : (0 : ℚ) < bestPatternScore (fieldTextOf f)
      · rw [if_pos hM0]
        cases hfw : firstWith (patternPairs (fieldTextOf f)) (bestPatternScore (fieldTextOf f)) with
        | none => rfl
        | some path => simp [hM]
      · rw [if_neg hM0]
    refine ⟨?_, fun _ => hpm, ?_⟩
    · rw [hpm]; simp [raises, hM]
    · intro m hm
      rw [hpm] at hm
      exact Option.noConfusion (Except.ok.inj hm)

/-- Witness for C1: on the field labelled "Email" the classifier raises
(best score 95 > 50) and in particular does not return the mapping it
was trying to build; on the no-match label `contact\s*number` it returns
no match. -/
theorem pattern_classifier_scoring_witness :
    raises (patternMatchField emailField) = true ∧
    patternMatchField contactNumberField = .ok none ∧
    patternMatchField emailField ≠ .ok (some emailMapping) := by
  refine ⟨(pattern_classifier_scoring emailField).1.mpr (by decide),
    (pattern_classifier_scoring contactNumberField).2.1 (by decide),
    (pattern_classifier_scoring emailField).2.2 emailMapping⟩

/-- C1 counterexample: for the field whose label is the declared pattern
string `years?\s*of\s*experience` (no context clues), the scoring the
claim describes yields a best score of 95 > 50 — so the claim requires a
mapping — yet the code emits none (it returns no match): the raw string
occurs verbatim in the text but its regex does not match, and the code
never scores a pattern whose regex search fails. -/
theorem pattern_classifier_scoring_counterexample :
    bestClaimPatternScore (fieldTextOf yoeField) = 95 ∧
    patternMatchField yoeField = .ok none := by
  exact ⟨by decide, rfl⟩

/-- C2 counterexample: the label `contact\s*number` equals, character for
character, a declared pattern phrase of `contact.phone`, yet the pattern
classifier returns no mapping at all — in particular no confidence ≥ 95. -/
theorem exact_phrase_confidence_counterexample :
    (r"contact\s*number" ∈ (fieldPatterns.map Prod.snd).flatten) ∧
    contactNumberField.label = r"contact\s*number" ∧
    patternMatchField contactNumberField = .ok none := by
  exact ⟨by decide, rfl, rfl⟩

/-- C2 (amended): for every field whose label exactly equals one of the
declared pattern phrases that is a plain literal (free of the `\s*` and
`?` regex metacharacters), the classifier computes a best pattern score
of at least 95 — and then raises a ValidationError at the mapping
construction (required confidence_level never passed) instead of
returning that confidence. -/
theorem literal_exact_phrase_confidence :
    (((fieldPatterns.map Prod.snd).flatten.filter isLiteralPhrase).all
      (fun p => decide ((95 : ℚ) ≤ bestPatternScore (fieldTextOf (mkLabelField p)))
        && raises (patternMatchField (mkLabelField p)))) = true := by decide

/-- C3: at the specification's scenario — label "First Name *", required,
type text, no adapter — the classifier's loop settles on
`personal.full_name` at score 95 (the generic `name` pattern scores 95 as
a verbatim substring while `first\s*name` only scores 80, inverting the
intended specificity), and the matcher then raises a ValidationError at
the `FieldMapping(...)` construction (required confidence_level never
passed) instead of producing the `personal.first_name` mapping the
specification expects. -/
theorem first_name_scenario_result :
    patternLoopOuter (fieldTextOf firstNameField) fieldPatterns (none, 0)
      = (some "personal.full_name", (95 : ℚ)) ∧
    matchFieldsToProfile none [firstNameField] defaultProfile
      = .error (ValidationError.fieldRequired "confidence_level") := by
  exact ⟨by decide, rfl⟩

/-! ### Characterizing the fuzzy classifier -/

theorem fuzzyLoopInner_eq_scanT (path : String) (t : List Char) :
    ∀ (vars : List String) (acc : Option String × ℕ),
      fuzzyLoopInner path t vars acc =
        scanPairsT (vars.map (fun v => (path, simplePartialMatch t v.data))) acc
  | [], _ => rfl
  | v :: rest, (bm, bs) => by
    simp only [fuzzyLoopInner, List.map_cons, scanPairsT]
    by_cases h : simplePartialMatch t v.data > bs ∧ simplePartialMatch t v.data > 60
    · rw [if_pos h, if_pos h, fuzzyLoopInner_eq_scanT path t rest (some path, simplePartialMatch t v.data)]
    · rw [if_neg h, if_neg h, fuzzyLoopInner_eq_scanT path t rest (bm, bs)]

theorem scanPairsT_append :
    ∀ (l₁ l₂ : List (String × ℕ)) (acc : Option String × ℕ),
      scanPairsT (l₁ ++ l₂) acc = scanPairsT l₂ (scanPairsT l₁ acc)
  | [], _, _ => rfl
  | (p, c) :: rest, l₂, (bm, bs) => by
    have h1 : scanPairsT ((p, c) :: rest) (bm, bs)
        = if c > bs ∧ c > 60 then scanPairsT rest (some p, c) else scanPairsT rest (bm, bs) := rfl
    have h2 : scanPairsT (((p, c) :: rest) ++ l₂) (bm, bs)
        = if c > bs ∧ c > 60 then scanPairsT (rest ++ l₂) (some p, c)
          else scanPairsT (rest ++ l₂) (bm, bs) := rfl
    rw [h1, h2]
    by_cases hc : c > bs ∧ c > 60
    · rw [if_pos hc, if_pos hc, scanPairsT_append rest l₂ (some p, c)]
    · rw [if_neg hc, if_neg hc, scanPairsT_append rest l₂ (bm, bs)]

theorem fuzzyLoopOuter_eq_scanT (t : List Char) :
    ∀ (table : List (String × List String)) (acc : Option String × ℕ),
      fuzzyLoopOuter t table acc =
        scanPairsT ((table.map (fun pv => pv.2.map (fun v => (pv.1, simplePartialMatch t v.data)))).flatten) acc
  | [], _ => rfl
  | (path, vars) :: rest, acc => by
    simp only [fuzzyLoopOuter, List.map_cons, List.flatten_cons]
    rw [fuzzyLoopInner_eq_scanT path t vars acc, scanPairsT_append,
      fuzzyLoopOuter_eq_scanT t rest _]

/-- The threshold-guarded scan equals the plain strict-max scan over the
pairs whose score exceeds the threshold. -/
theorem scanPairsT_eq_filter :
    ∀ (pairs : List (String × ℕ)) (acc : Option String × ℕ),
      scanPairsT pairs acc = scanPairs (pairs.filter (fun pc => decide (60 < pc.2))) acc
  | [], _ => rfl
  | (p, c) :: rest, (bm, bs) => by
    have hL : scanPairsT ((p, c) :: rest) (bm, bs)
        = if c > bs ∧ c > 60 then scanPairsT rest (some p, c) else scanPairsT rest (bm, bs) := rfl
    rw [hL]
    by_cases h60 : 60 < c
    · have hf : ((p, c) :: rest).filter (fun pc => decide (60 < pc.2))
          = (p, c) :: rest.filter (fun pc => decide (60 < pc.2)) := by
        simp [List.filter_cons, h60]
      rw [hf]
      have hR : scanPairs ((p, c) :: rest.filter (fun pc => decide (60 < pc.2))) (bm, bs)
          = if c > bs then scanPairs (rest.filter (fun pc => decide (60 < pc.2))) (some p, c)
            else scanPairs (rest.filter (fun pc => decide (60 < pc.2))) (bm, bs) := rfl
      rw [hR]
      by_cases hcb : c > bs
      · rw [if_pos ⟨hcb, h60⟩, if_pos hcb, scanPairsT_eq_filter rest (some p, c)]
      · rw [if_neg (fun hh => hcb hh.1), if_neg hcb, scanPairsT_eq_filter rest (bm, bs)]
    · have hf : ((p, c) :: rest).filter (fun pc => decide (60 < pc.2))
          = rest.filter (fun pc => decide (60 < pc.2)) := by
        simp [List.filter_cons, h60]
      rw [hf, if_neg (fun hh => h60 hh.2), scanPairsT_eq_filter rest (bm, bs)]

theorem map_snd_filter_gt :
    ∀ pairs : List (String × ℕ),
      (pairs.filter (fun pc => decide (60 < pc.2))).map Prod.snd
        = (pairs.map Prod.snd).filter (fun c => decide (60 < c))
  | [] => rfl
  | (p, c) :: rest => by
    by_cases h60 : 60 < c
    · simp [List.filter_cons, h60, map_snd_filter_gt rest]
    · simp [List.filter_cons, h60, map_snd_filter_gt rest]

theorem foldl_max_filter_gt (l : List ℕ) :
    (l.filter (fun c => decide (60 < c))).foldl max 0
      = if 60 < l.foldl max 0 then l.foldl max 0 else 0 := by
  by_cases hM : 60 < l.foldl max 0
  · rw [if_pos hM]
    have hmem : l.foldl max 0 ∈ l := by
      rcases foldl_max_mem l 0 with h0 | h
      · rw [h0] at hM; exact absurd hM (by norm_num)
      · exact h
    apply le_antisymm
    · refine foldl_max_le _ 0 _ (Nat.zero_le _) ?_
      intro x hx
      exact elem_le_foldl_max x l 0 (List.mem_filter.mp hx).1
    · exact elem_le_foldl_max _ _ 0 (List.mem_filter.mpr ⟨hmem, by simpa using hM⟩)
  · rw [if_neg hM]
    have hnil : l.filter (fun c => decide (60 < c)) = [] := by
      rw [List.filter_eq_nil_iff]
      intro a ha
      simp only [decide_eq_true_eq]
      intro h60
      exact hM (lt_of_lt_of_le h60 (elem_le_foldl_max a l 0 ha))
    rw [hnil]; rfl

theorem firstWith_filter_gt {m : ℕ} (hm : 60 < m) :
    ∀ pairs : List (String × ℕ),
      firstWith (pairs.filter (fun pc => decide (60 < pc.2))) m = firstWith pairs m
  | [] => rfl
  | (p, c) :: rest => by
    by_cases hcm : c = m
    · subst hcm
      have hf : ((p, c) :: rest).filter (fun pc => decide (60 < pc.2))
          = (p, c) :: rest.filter (fun pc => decide (60 < pc.2)) := by
        simp [List.filter_cons, hm]
      rw [hf]
      simp [firstWith]
    · by_cases h60 : 60 < c
      · have hf : ((p, c) :: rest).filter (fun pc => decide (60 < pc.2))
            = (p, c) :: rest.filter (fun pc => decide (60 < pc.2)) := by
          simp [List.filter_cons, h60]
        rw [hf]
        show (if c = m then some p else firstWith (rest.filter (fun pc => decide (60 < pc.2))) m)
          = (if c = m then some p else firstWith rest m)
        rw [if_neg hcm, if_neg hcm, firstWith_filter_gt hm rest]
      · have hf : ((p, c) :: rest).filter (fun pc => decide (60 < pc.2))
            = rest.filter (fun pc => decide (60 < pc.2)) := by
          simp [List.filter_cons, h60]
        rw [hf]
        show firstWith (rest.filter (fun pc => decide (60 < pc.2))) m
          = (if c = m then some p else firstWith rest m)
        rw [if_neg hcm, firstWith_filter_gt hm rest]

/-- C6 counterexample: at the field labelled "Given Name" the best fuzzy
similarity is 100 > 60, so the claim requires a mapping to be emitted;
instead the classifier raises a ValidationError at the `FieldMapping`
construction (required confidence_level never passed). -/
theorem fuzzy_emission_counterexample :
    60 < bestFuzzySim givenNameField.label ∧
    raises (fuzzyMatchField givenNameField) = true := by
  exact ⟨by decide, rfl⟩

/-- C6 (amended): the fuzzy classifier compares only the field's label
(never its context clues) against each declared label phrase, under a
similarity in which identical strings score 100, a string fully contained
in the other scores 90, and any other pair scores a token-overlap value
bounded by 100; when the best similarity is at most 60 it returns no
match, and when it exceeds 60 the attempted mapping construction raises a
ValidationError (required confidence_level never passed), so it never
emits a mapping. -/
theorem fuzzy_classifier_spec :
    (∀ t : List Char, t ≠ [] → simplePartialMatch t t = 100) ∧
    (∀ s t : List Char, s ≠ [] → t ≠ [] →
      pyStrip (pyLower s) ≠ pyStrip (pyLower t) →
      (occursIn (pyStrip (pyLower s)) (pyStrip (pyLower t)) = true ∨
        occursIn (pyStrip (pyLower t)) (pyStrip (pyLower s)) = true) →
      simplePartialMatch s t = 90) ∧
    (∀ s t : List Char, simplePartialMatch s t ≤ 100) ∧
    (∀ (f : FormField) (clues : List String),
      fuzzyMatchField { f with contextClues := clues } = fuzzyMatchField f) ∧
    (∀ f : FormField,
      (raises (fuzzyMatchField f) = true ↔ 60 < bestFuzzySim f.label) ∧
      (¬ 60 < bestFuzzySim f.label → fuzzyMatchField f = .ok none) ∧
      (∀ m, fuzzyMatchField f ≠ .ok (some m))) := by
  refine ⟨?_, ?_, ?_, ?_, ?_⟩
  · intro t ht
    cases t with
    | nil => exact absurd rfl ht
    | cons c cs => simp [simplePartialMatch]
  · intro s t hs ht hne hocc
    have hE : (s.isEmpty || t.isEmpty) = false := by
      cases s with
      | nil => exact absurd rfl hs
      | cons a as =>
        cases t with
        | nil => exact absurd rfl ht
        | cons b bs2 => rfl
    simp only [simplePartialMatch, hE]
    rw [if_neg Bool.false_ne_true, if_neg hne,
      if_pos (show (occursIn (pyStrip (pyLower s)) (pyStrip (pyLower t))
          || occursIn (pyStrip (pyLower t)) (pyStrip (pyLower s))) = true by
        rcases hocc with h | h <;> simp [h])]
  · intro s t
    simp only [simplePartialMatch]
    split_ifs with h1 h2 h3 h4 h5
    · omega
    · omega
    · omega
    · omega
    · omega
    · set w1 := (pySplit (pyStrip (pyLower s))).dedup with hw1
      set w2 := (pySplit (pyStrip (pyLower t))).dedup with hw2
      have hnodup : (w1.filter (fun w => decide (w ∈ w2))).Nodup :=
        (List.nodup_dedup _).filter _
      have hsub : (w1.filter (fun w => decide (w ∈ w2))) ⊆ (w1 ++ w2).dedup := by
        intro x hx
        exact List.mem_dedup.mpr (List.mem_append_left _ (List.mem_of_mem_filter hx))
      have hlen : (w1.filter (fun w => decide (w ∈ w2))).length ≤ ((w1 ++ w2).dedup).length :=
        (List.subperm_of_subset hnodup hsub).length_le
      have hpos : 0 < ((w1 ++ w2).dedup).length := by
        cases huni : (w1 ++ w2).dedup with
        | nil => rw [huni] at h5; exact absurd rfl h5
        | cons x xs => simp
      calc (w1.filter (fun w => decide (w ∈ w2))).length * 100 / ((w1 ++ w2).dedup).length
          ≤ ((w1 ++ w2).dedup).length * 100 / ((w1 ++ w2).dedup).length :=
            Nat.div_le_div_right (Nat.mul_le_mul_right _ hlen)
        _ = 100 := Nat.mul_div_cancel_left _ hpos
  · intro f clues
    rcases f with ⟨fid, fname, lbl, fty, freq, fopts, fctx⟩
    unfold fuzzyMatchField
    rcases h : fuzzyLoopOuter (pyLower lbl.data) profileFieldLabels (none, 0) with ⟨bm, bs⟩
    cases bm with
    | none => rfl
    | some path =>
      exact congrArg (Except.map fun m => some m)
        (fieldMappingInit_none_ctx fid path ((bs : ℚ)) MappingSource.fuzzyMatching
          lbl fty clues fctx false)
  · intro f
    have hscan := (fuzzyLoopOuter_eq_scanT (pyLower f.label.data) profileFieldLabels
        ((none : Option String), 0)).trans
      (scanPairsT_eq_filter (fuzzyPairs f.label) ((none : Option String), 0))
    have hspec := scanPairs_spec
      ((fuzzyPairs f.label).filter (fun pc => decide (60 < pc.2))) (none : Option String) 0
    have hMf : (((fuzzyPairs f.label).filter (fun pc => decide (60 < pc.2))).map Prod.snd).foldl max 0
        = if 60 < bestFuzzySim f.label then bestFuzzySim f.label else 0 := by
      rw [map_snd_filter_gt, foldl_max_filter_gt]
      rfl
    by_cases hM : 60 < bestFuzzySim f.label
    · have hMf2 : (((fuzzyPairs f.label).filter (fun pc => decide (60 < pc.2))).map Prod.snd).foldl max 0
          = bestFuzzySim f.label := by rw [hMf, if_pos hM]
      have hloop : fuzzyLoopOuter (pyLower f.label.data) profileFieldLabels (none, 0)
          = (firstWith (fuzzyPairs f.label) (bestFuzzySim f.label), bestFuzzySim f.label) := by
        rw [hscan, hspec, hMf2, if_pos (show 0 < bestFuzzySim f.label by omega),
          firstWith_filter_gt hM]
      have hmem : bestFuzzySim f.label ∈ (fuzzyPairs f.label).map Prod.snd := by
        rcases foldl_max_mem ((fuzzyPairs f.label).map Prod.snd) 0 with h0 | h
        · have hne : bestFuzzySim f.label ≠ 0 := by omega
          exact absurd h0 hne
        · exact h
      obtain ⟨path, hfw⟩ := Option.isSome_iff_exists.mp
        (firstWith_isSome (fuzzyPairs f.label) _ hmem)
      obtain ⟨e, he⟩ := fieldMappingInit_none_error f.fieldId path
        ((bestFuzzySim f.label : ℚ)) .fuzzyMatching f.label f.fieldType f.contextClues false
      have hfm : fuzzyMatchField f = .error e := by
        unfold fuzzyMatchField
        rw [hloop, hfw]
        simp [he, Except.map]
      refine ⟨?_, ?_, ?_⟩
      · rw [hfm]; simp [raises, hM]
      · intro hc; exact absurd hM hc
      · intro m hm
        rw [hfm] at hm
        exact Except.noConfusion hm
    · have hMf0 : (((fuzzyPairs f.label).filter (fun pc => decide (60 < pc.2))).map Prod.snd).foldl max 0
          = 0 := by rw [hMf, if_neg hM]
      have hloop : fuzzyLoopOuter (pyLower f.label.data) profileFieldLabels (none, 0)
          = (none, 0) := by
        rw [hscan, hspec, hMf0, if_neg (lt_irrefl 0)]
      have hfm : fuzzyMatchField f = .ok none := by
        unfold fuzzyMatchField
        rw [hloop]
      refine ⟨?_, fun _ => hfm, ?_⟩
      · rw [hfm]; simp [raises, hM]
      · intro m hm
        rw [hfm] at hm
        exact Option.noConfusion (Except.ok.inj hm)

/-- Witness for C6: concrete instances of each conjunct — identical
strings score 100, containment scores 90, an arbitrary pair stays ≤ 100,
the classifier ignores context clues, and on "Given Name" (best
similarity above 60) it raises instead of emitting. -/
theorem fuzzy_classifier_spec_witness :
    simplePartialMatch "name".data "name".data = 100 ∧
    simplePartialMatch "name".data "first name".data = 90 ∧
    simplePartialMatch "salary".data "work authorization".data ≤ 100 ∧
    fuzzyMatchField { givenNameField with contextClues := ["Personal Information"] }
      = fuzzyMatchField givenNameField ∧
    raises (fuzzyMatchField givenNameField) = true := by
  refine ⟨fuzzy_classifier_spec.1 _ (by decide),
    fuzzy_classifier_spec.2.1 _ _ (by decide) (by decide) (by decide) (Or.inl (by decide)),
    fuzzy_classifier_spec.2.2.1 _ _,
    fuzzy_classifier_spec.2.2.2.1 givenNameField ["Personal Information"],
    (fuzzy_classifier_spec.2.2.2.2 givenNameField).1.mpr (by decide)⟩

/-- C4 counterexample: with a timing-out adapter on the single field
"First Name *", match_fields_to_profile does not return a mapping list
at all — it propagates the ValidationError its fallback raises at the
FieldMapping construction — although the claim says it returns exactly
the no-adapter mapping list. Its behaviour does coincide with the
no-adapter run. -/
theorem adapter_failure_fallback_counterexample :
    raises (matchFieldsToProfile (some failingService) [firstNameField] defaultProfile) = true ∧
    matchFieldsToProfile (some failingService) [firstNameField] defaultProfile
      = matchFieldsToProfile none [firstNameField] defaultProfile := by
  exact ⟨rfl, rfl⟩

/-- C4 (amended): whenever the External Intelligence adapter raises
(timeouts surface as exceptions) or returns an unsuccessful/empty reply,
the orchestrator behaves exactly as with no adapter configured — the
same mapping list whenever that run returns one, and the same
ValidationError whenever that run raises (which it does as soon as any
field matches, every FieldMapping construction omitting the required
confidence_level); the adapter's own failure is never propagated to the
caller. -/
theorem adapter_failure_fallback
    (svc : List FormField → UserProfile → Except String AIResponseM)
    (formFields : List FormField) (profile : UserProfile)
    (h : (∃ e, svc formFields profile = .error e) ∨
      (∃ r, svc formFields profile = .ok r ∧ (r.success = false ∨ r.data = none))) :
    matchFieldsToProfile (some svc) formFields profile
      = matchFieldsToProfile none formFields profile := by
  rcases h with ⟨e, he⟩ | ⟨r, hr, hfail⟩
  · simp [matchFieldsToProfile, he]
  · rcases r with ⟨s, d⟩
    rcases hfail with hs | hd
    · have hs2 : s = false := hs
      subst hs2
      simp [matchFieldsToProfile, hr]
    · have hd2 : d = none := hd
      subst hd2
      cases s <;> simp [matchFieldsToProfile, hr]

/-- Witness for C4: a timing-out adapter on the "First Name *" field
yields byte-for-byte the no-adapter outcome. -/
theorem adapter_failure_fallback_witness :
    matchFieldsToProfile (some failingService) [firstNameField] defaultProfile
      = matchFieldsToProfile none [firstNameField] defaultProfile :=
  adapter_failure_fallback failingService [firstNameField] defaultProfile
    (Or.inl ⟨"timeout", rfl⟩)

/-- C5: for every score in [0,100] the validator output is the pure band
of the score — low iff ≤ 40, medium iff in (40,70], high iff in (70,90],
very_high iff > 90 — the validator ignores the value passed for the
level; accordingly, whenever a FieldMapping construction that does
supply a level succeeds, the resulting level is the band of the score.
(The matcher's own constructions never supply one and so raise instead
of producing a mapping.) -/
theorem confidence_level_band (v : FieldMappingConfidence) (s : ℚ)
    (h0 : 0 ≤ s) (h100 : s ≤ 100) :
    set_confidence_level v (some s) = confidenceBand s ∧
    (confidenceBand s = .low ↔ s ≤ 40) ∧
    (confidenceBand s = .medium ↔ 40 < s ∧ s ≤ 70) ∧
    (confidenceBand s = .high ↔ 70 < s ∧ s ≤ 90) ∧
    (confidenceBand s = .veryHigh ↔ 90 < s) ∧
    (∀ (fid pp : String) (src : MappingSource) (lbl : String) (ft : FieldType)
      (ctx : List String) (dm : Bool) (m : FieldMapping),
      fieldMappingInit fid pp s src lbl ft ctx dm (some v) = .ok m →
      m.confidenceLevel = confidenceBand s) := by
  refine ⟨rfl, ?_, ?_, ?_, ?_, ?_⟩
  · unfold confidenceBand
    split_ifs with h1 h2 h3
    · exact iff_of_true rfl h1
    · exact iff_of_false (by simp) h1
    · exact iff_of_false (by simp) h1
    · exact iff_of_false (by simp) h1
  · unfold confidenceBand
    split_ifs with h1 h2 h3
    · exact iff_of_false (by simp) (fun hh => absurd hh.1 (not_lt.mpr h1))
    · exact iff_of_true rfl ⟨not_le.mp h1, h2⟩
    · exact iff_of_false (by simp) (fun hh => h2 hh.2)
    · exact iff_of_false (by simp) (fun hh => h2 hh.2)
  · unfold confidenceBand
    split_ifs with h1 h2 h3
    · exact iff_of_false (by simp) (fun hh => absurd hh.1 (not_lt.mpr (by linarith)))
    · exact iff_of_false (by simp) (fun hh => absurd hh.1 (not_lt.mpr h2))
    · exact iff_of_true rfl ⟨not_le.mp h2, h3⟩
    · exact iff_of_false (by simp) (fun hh => h3 hh.2)
  · unfold confidenceBand
    split_ifs with h1 h2 h3
    · exact iff_of_false (by simp) (by intro hh; linarith)
    · exact iff_of_false (by simp) (by intro hh; linarith)
    · exact iff_of_false (by simp) (fun hh => absurd hh (not_lt.mpr h3))
    · exact iff_of_true rfl (not_le.mp h3)
  · intro fid pp src lbl ft ctx dm m hm
    unfold fieldMappingInit at hm
    rw [if_pos ⟨h0, h100⟩] at hm
    rw [← Except.ok.inj hm]
    rfl

/-- Witness for C5 at score 85 (a high-band score): the validator maps
any supplied level to the band, and a successful construction at 85
carries level high. -/
theorem confidence_level_band_witness :
    set_confidence_level .low (some 85) = confidenceBand 85 ∧
    sampleMapping85.confidenceLevel = confidenceBand 85 :=
  ⟨(confidence_level_band .low 85 (by norm_num) (by norm_num)).1,
    (confidence_level_band .low 85 (by norm_num) (by norm_num)).2.2.2.2.2
      "f" "contact.email" .fuzzyMatching "Email" .email [] false sampleMapping85 rfl⟩

/-- C7: on the metadata the analyzer derives from a descriptor set, the
complexity score equals the specification's formula — field-count bucket,
+1 for any file field, +1 for a required ratio above 0.7 when fields
exist, plus the capped textarea term — clamped to 10; and for arbitrary
metadata arguments it always lies in [0,10]. -/
theorem complexity_score_spec (fields : List FieldData) :
    calculateComplexityScore fields ((fields.filter (fun f => f.required)).length)
        (fields.any (fun f => f.fieldType == "file"))
      = min (complexitySpecFormula fields) 10 ∧
    (∀ (rf : ℕ) (hf : Bool),
      0 ≤ calculateComplexityScore fields rf hf ∧
      calculateComplexityScore fields rf hf ≤ 10) := by
  constructor
  · simp only [calculateComplexityScore, complexitySpecFormula]
    congr 1
    by_cases hta : 0 < (fields.filter (fun f => f.fieldType == "textarea")).length
    · rw [if_pos hta]
      split_ifs <;> ring
    · rw [if_neg hta]
      have h0 : ((fields.filter (fun f => f.fieldType == "textarea")).length : ℚ) = 0 := by
        rw [Nat.eq_zero_of_not_pos hta]; norm_num
      rw [h0]
      have hmin : min ((0 : ℚ) * (1 / 2)) 2 = 0 := by
        rw [min_def]; norm_num
      rw [hmin]
      split_ifs <;> ring
  · intro rf hf
    simp only [calculateComplexityScore]
    constructor
    · refine le_min ?_ (by norm_num)
      have hmin : (0 : ℚ) ≤ min
          (((fields.filter (fun f => f.fieldType == "textarea")).length : ℚ) * (1 / 2)) 2 :=
        le_min (by positivity) (by norm_num)
      split_ifs <;> linarith
    · exact min_le_right _ _

/-! ### Extraction: ordering and identifier lemmas -/

theorem extractElems_append :
    ∀ (l₁ l₂ : List Elem) (k : Nat),
      extractElems (l₁ ++ l₂) k
        = ((extractElems l₁ k).1 ++ (extractElems l₂ (extractElems l₁ k).2).1,
           (extractElems l₂ (extractElems l₁ k).2).2)
  | [], l₂, k => by simp [extractElems]
  | e :: rest, l₂, k => by
    cases hfd : extractFieldData e k with
    | some fd =>
      have hL : extractElems ((e :: rest) ++ l₂) k
          = (fd :: (extractElems (rest ++ l₂) (k + 1)).1, (extractElems (rest ++ l₂) (k + 1)).2) := by
        simp only [List.cons_append, extractElems, hfd]
        rfl
      have hR : extractElems (e :: rest) k
          = (fd :: (extractElems rest (k + 1)).1, (extractElems rest (k + 1)).2) := by
        simp only [extractElems, hfd]
      rw [hL, hR, extractElems_append rest l₂ (k + 1)]
      rfl
    | none =>
      have hL : extractElems ((e :: rest) ++ l₂) k = extractElems (rest ++ l₂) k := by
        simp only [List.cons_append, extractElems, hfd]
        rfl
      have hR : extractElems (e :: rest) k = extractElems rest k := by
        simp only [extractElems, hfd]
      rw [hL, hR, extractElems_append rest l₂ k]

theorem extractGroups_eq :
    ∀ (sels : List Selector) (doc : List Elem) (k : Nat),
      extractGroups sels doc k
        = (extractElems ((sels.map (fun s => doc.filter (matchesSelector s))).flatten) k).1
  | [], _, _ => rfl
  | s :: ss, doc, k => by
    simp only [extractGroups, List.map_cons, List.flatten_cons]
    rw [extractElems_append (doc.filter (matchesSelector s)) _ k]
    rw [extractGroups_eq ss doc (extractElems (doc.filter (matchesSelector s)) k).2]

theorem extractFieldData_fieldId (e : Elem) (k : Nat) (fd : FieldData)
    (h : extractFieldData e k = some fd) :
    fd.fieldId = (e.getAttr "id").getD ((e.getAttr "name").getD (s!"field_{k}")) := by
  simp only [extractFieldData] at h
  split at h
  · exact absurd h (by simp)
  · rw [← Option.some.inj h]

theorem extract_ids_sublist :
    ∀ (es : List Elem) (k : Nat),
      (∀ e ∈ es, (Elem.getAttr e "id").isSome = true) →
      List.Sublist ((extractElems es k).1.map (fun fd => fd.fieldId))
        (es.map (fun e => (Elem.getAttr e "id").getD ""))
  | [], _, _ => List.Sublist.refl _
  | e :: rest, k, h => by
    have hid := h e (List.mem_cons_self e rest)
    obtain ⟨v, hv⟩ := Option.isSome_iff_exists.mp hid
    have hrest : ∀ x ∈ rest, (Elem.getAttr x "id").isSome = true :=
      fun x hx => h x (List.mem_cons_of_mem e hx)
    cases hfd : extractFieldData e k with
    | none =>
      have hL : extractElems (e :: rest) k = extractElems rest k := by
        simp only [extractElems, hfd]
      rw [hL, List.map_cons]
      exact List.Sublist.cons _ (extract_ids_sublist rest k hrest)
    | some fd =>
      have hL : extractElems (e :: rest) k
          = (fd :: (extractElems rest (k + 1)).1, (extractElems rest (k + 1)).2) := by
        simp only [extractElems, hfd]
      rw [hL, List.map_cons]
      have hfid : fd.fieldId = (Elem.getAttr e "id").getD "" := by
        rw [extractFieldData_fieldId e k fd hfd, hv]
        rfl
      simp only [List.map_cons, hfid]
      exact List.Sublist.cons₂ _ (extract_ids_sublist rest (k + 1) hrest)

/-- C8: for markup containing no form element at all, basic analysis
returns the structured non-fatal result — metadata `total_fields = 0`
with the explanatory message — and, being a total function, never
raises. -/
theorem no_form_structured_result (doc : List Elem)
    (h : ∀ e ∈ doc, e.tag ≠ "form") :
    basicFormAnalysis doc = .noForm "No form elements found in HTML" 0 ∧
    (basicFormAnalysis doc).totalFieldsMeta = 0 ∧
    (basicFormAnalysis doc).errorMsg = some "No form elements found in HTML" := by
  have hnil : doc.filter (fun e => e.tag == "form") = [] := by
    rw [List.filter_eq_nil_iff]
    intro e he
    simpa using h e he
  have hb : basicFormAnalysis doc = .noForm "No form elements found in HTML" 0 := by
    simp only [basicFormAnalysis, hnil]
    rfl
  exact ⟨hb, by rw [hb]; rfl, by rw [hb]; rfl⟩

/-- Witness for C8 on a one-element document with no form. -/
theorem no_form_structured_result_witness :
    basicFormAnalysis noFormDoc = .noForm "No form elements found in HTML" 0 ∧
    (basicFormAnalysis noFormDoc).totalFieldsMeta = 0 ∧
    (basicFormAnalysis noFormDoc).errorMsg = some "No form elements found in HTML" :=
  no_form_structured_result noFormDoc (by decide)

/-- C10: extraction returns descriptors grouped by control kind in the
fixed selector order (text, email, tel, number, date, url, password,
file, checkbox, radio inputs, then textareas, then selects), preserving
document order only within each group; on `mixedDoc` (a select followed
by a text input) the output therefore differs from processing the
document in order. -/
theorem extraction_grouped_order :
    (∀ doc : List Elem, extractHtmlFields doc = (extractElems (selectedElems doc) 0).1) ∧
    extractHtmlFields mixedDoc ≠ (extractElems mixedDoc 0).1 := by
  refine ⟨?_, by decide⟩
  intro doc
  exact extractGroups_eq fieldSelectors doc 0

/-- C9 counterexample: an ordinary two-option radio group (shared name,
no ids) yields two descriptors with the same field_id "gender": the
descriptors of one extraction pass are not pairwise distinct. -/
theorem extraction_field_ids_counterexample :
    (extractHtmlFields radioDoc).map (fun fd => fd.fieldId) = ["gender", "gender"] ∧
    ¬ ((extractHtmlFields radioDoc).map (fun fd => fd.fieldId)).Pairwise (· ≠ ·) := by
  decide

/-- C9 (amended): when every selected control carries an `id` attribute
and those ids are pairwise distinct, the descriptors of one extraction
pass have pairwise distinct field_id values; without that assumption the
invariant fails (see the radio-group counterexample). -/
theorem extraction_field_ids_distinct (doc : List Elem)
    (h1 : ∀ e ∈ selectedElems doc, (Elem.getAttr e "id").isSome = true)
    (h2 : (selectedElems doc).Pairwise (fun a b => Elem.getAttr a "id" ≠ Elem.getAttr b "id")) :
    ((extractHtmlFields doc).map (fun fd => fd.fieldId)).Pairwise (· ≠ ·) := by
  have hgrp : extractHtmlFields doc = (extractElems (selectedElems doc) 0).1 :=
    extractGroups_eq fieldSelectors doc 0
  rw [hgrp]
  have hsub := extract_ids_sublist (selectedElems doc) 0 h1
  have hpair : ((selectedElems doc).map (fun e => (Elem.getAttr e "id").getD "")).Pairwise (· ≠ ·) := by
    rw [List.pairwise_map]
    refine h2.imp_of_mem ?_
    intro a b ha hb hne heq
    apply hne
    obtain ⟨va, hva⟩ := Option.isSome_iff_exists.mp (h1 a ha)
    obtain ⟨vb, hvb⟩ := Option.isSome_iff_exists.mp (h1 b hb)
    rw [hva, hvb] at heq
    simp only [Option.getD_some] at heq
    rw [hva, hvb, heq]
  exact List.Pairwise.sublist hsub hpair

/-- Witness for C9 on two controls with distinct explicit ids. -/
theorem extraction_field_ids_distinct_witness :
    ((extractHtmlFields idsDoc).map (fun fd => fd.fieldId)).Pairwise (· ≠ ·) :=
  extraction_field_ids_distinct idsDoc (by decide) (by decide)

end AppAgent
